import Mathlib

/-!
Shallow embedding of the WikicatEnvironment from experiments/wikicat.
States, observations and data rows are lists of rationals (the code uses
float tensors holding 0/1 values); the batch dimension is a list of rows
and all tensor operations act pointwise per row, which the embedding makes
explicit via zipWith.
-/

namespace Wikicat

/-- Reward configuration: the keys of the default_rewards dictionary. -/
structure Rewards where
  attribute_positive : ℚ
  attribute_negative : ℚ
  category_positive : ℚ
  category_negative : ℚ
  repeated_poll : ℚ
  end_action : ℚ
  end_action_if_no_category_predicted : ℚ
deriving DecidableEq

/-- Default reward values from the default_rewards defaultdict. -/
def default_rewards : Rewards :=
  { attribute_positive := 1
    attribute_negative := -1
    category_positive := 3
    category_negative := -1
    repeated_poll := -(1/2)
    end_action := 0
    end_action_if_no_category_predicted := 0 }

/-- The environment: numbers of attribute and category columns
(shapes of the shared data tensors) plus the reward table self.rw. -/
structure WikicatEnvironment where
  nAttrs : Nat
  nCats : Nat
  rw : Rewards

namespace WikicatEnvironment

/-- Number of columns of joint_data: attributes, categories, end column. -/
def n_actions (env : WikicatEnvironment) : Nat :=
  env.nAttrs + env.nCats + 1

/-- self.end_action_id = self.joint_data.shape[1]-1. -/
def end_action_id (env : WikicatEnvironment) : Nat :=
  env.nAttrs + env.nCats

/-- self.category_action_ids = T.arange(nAttrs, nAttrs + nCats). -/
def category_action_ids (env : WikicatEnvironment) : List Nat :=
  List.range' env.nAttrs env.nCats

end WikicatEnvironment

/-- AgentNet.utils.tensor_ops.in1d: membership of an element in a vector of indices. -/
def in1d (a : Nat) (ids : List Nat) : Bool :=
  ids.contains a

/-- One row of self.joint_data: the attribute columns, then the category
columns, then the always-zero end_session_now column. -/
def joint_data_row (attrs cats : List ℚ) : List ℚ :=
  attrs ++ cats ++ [0]

/-- T.extra_ops.to_one_hot of a single action over n columns. -/
def to_one_hot (a : Nat) (n : Nat) : List ℚ :=
  (List.range n).map (fun i => if i = a then 1 else 0)

/-- Pointwise combination of three equal-length batches. -/
def zipWith3 (f : α → β → γ → δ) : List α → List β → List γ → List δ
  | a :: as, b :: bs, c :: cs => f a b c :: zipWith3 f as bs cs
  | _, _, _ => []

namespace WikicatEnvironment

/-- session_active = T.eq(last_state[:, end_action_id], 0), one batch row. -/
def session_active (env : WikicatEnvironment) (last_state : List ℚ) : Bool :=
  decide (last_state.getD env.end_action_id 0 = 0)

/-- One batch row of the new state computed by get_action_results:
T.switch(session_active, T.set_subtensor(last_state[batch_range, action], 1), last_state). -/
def new_state_row (env : WikicatEnvironment) (last_state : List ℚ) (action : Nat) : List ℚ :=
  if env.session_active last_state then last_state.set action 1 else last_state

/-- One batch row of the observation computed by get_action_results:
the response joint_data[batch_range, action], then T.eq(session_active, 0),
then the one-hot encoding of the action. -/
def observation_row (env : WikicatEnvironment) (data_row last_state : List ℚ)
    (action : Nat) : List ℚ :=
  [data_row.getD action 0]
    ++ [if env.session_active last_state then 0 else 1]
    ++ to_one_hot action env.n_actions

/-- get_action_results: batched state transition and observation.
joint_data, last_state are [batch, column] and action is int[batch];
every tensor operation involved acts independently on each batch row. -/
def get_action_results (env : WikicatEnvironment)
    (joint_data last_state : List (List ℚ)) (action : List Nat) :
    List (List ℚ) × List (List ℚ) :=
  (List.zipWith env.new_state_row last_state action,
   zipWith3 (fun d s a => env.observation_row d s a) joint_data last_state action)

/-- action_is_categorical = in1d(action, category_action_ids), one entry. -/
def action_is_categorical (env : WikicatEnvironment) (a : Nat) : Bool :=
  in1d a env.category_action_ids

/-- has_finished_now = T.set_subtensor(T.eq(session_actions, end_action_id)[-1], 1):
whether each tick ends the session, with the final tick forced to count as an end. -/
def has_finished_now (env : WikicatEnvironment) (session_actions : List Nat) : List Bool :=
  (session_actions.map (fun a => decide (a = env.end_action_id))).set
    (session_actions.length - 1) true

/-- end_tick = has_finished_now.nonzero()[0][0]: the first tick that ends the session. -/
def end_tick (env : WikicatEnvironment) (session_actions : List Nat) : Nat :=
  (env.has_finished_now session_actions).findIdx id

/-- The response read by get_reward and get_action_results:
joint_data[batch_i, action]. -/
def response_at (data_row : List ℚ) (a : Nat) : ℚ :=
  data_row.getD a 0

/-- get_reward for a single session: session_states[t] is the environment
state before the action session_actions[t]; data_row is the row of
joint_data for sample batch_i; the result is the per-tick reward vector. -/
def get_reward (env : WikicatEnvironment) (data_row : List ℚ)
    (session_states : List (List ℚ)) (session_actions : List Nat) : List ℚ :=
  let hfn := env.has_finished_now session_actions
  let at_least_one_categorical_action :=
    ((session_actions.map env.action_is_categorical).take
      (env.end_tick session_actions)).any id
  let reward_for_end_action :=
    if at_least_one_categorical_action then env.rw.end_action
    else env.rw.end_action_if_no_category_predicted
  (List.range session_actions.length).map (fun t =>
    let a := session_actions.getD t 0
    let st := session_states.getD t []
    let has_tried_already := st.getD a 0
    let session_is_active := decide (st.getD env.end_action_id 0 = 0)
    let response := response_at data_row a
    let reward_for_intermediate_action :=
      if env.action_is_categorical a then
        response * (env.rw.category_positive - env.rw.category_negative)
          + env.rw.category_negative
      else
        response * (env.rw.attribute_positive - env.rw.attribute_negative)
          + env.rw.attribute_negative
    let reward_for_intermediate_action_first_time :=
      if has_tried_already ≠ 0 then env.rw.repeated_poll
      else reward_for_intermediate_action
    let reward_for_action :=
      if hfn.getD t false then reward_for_end_action
      else reward_for_intermediate_action_first_time
    if session_is_active then reward_for_action else 0)

/-- The all-zero initial session state (nothing tried, session alive). -/
def zero_state (env : WikicatEnvironment) : List ℚ :=
  List.replicate env.n_actions 0

/-- The session states visited before each action when the session starts in
state s and the new state after every tick is the one get_action_results
returns for that row: states_before s actions lists the state before each
action, matching the session_states argument of get_reward. -/
def states_before (env : WikicatEnvironment) (s : List ℚ) :
    List Nat → List (List ℚ)
  | [] => []
  | a :: rest => s :: env.states_before (env.new_state_row s a) rest

end WikicatEnvironment

/-! Generic list lemmas used below. -/

theorem getD_zipWith (f : α → β → γ) (l1 : List α) (l2 : List β) (b : Nat)
    (h1 : b < l1.length) (h2 : b < l2.length) (d1 : α) (d2 : β) (d3 : γ) :
    (List.zipWith f l1 l2).getD b d3 = f (l1.getD b d1) (l2.getD b d2) := by
  induction l1 generalizing l2 b with
  | nil => simp at h1
  | cons x xs ih =>
    cases l2 with
    | nil => simp at h2
    | cons y ys =>
      cases b with
      | zero => simp
      | succ b =>
        simp only [List.zipWith_cons_cons, List.getD_cons_succ]
        exact ih ys b (by simpa using h1) (by simpa using h2)

theorem getD_zipWith3 (f : α → β → γ → δ) (l1 : List α) (l2 : List β) (l3 : List γ)
    (b : Nat) (h1 : b < l1.length) (h2 : b < l2.length) (h3 : b < l3.length)
    (d1 : α) (d2 : β) (d3 : γ) (d4 : δ) :
    (zipWith3 f l1 l2 l3).getD b d4 = f (l1.getD b d1) (l2.getD b d2) (l3.getD b d3) := by
  induction l1 generalizing l2 l3 b with
  | nil => simp at h1
  | cons x xs ih =>
    cases l2 with
    | nil => simp at h2
    | cons y ys =>
      cases l3 with
      | nil => simp at h3
      | cons z zs =>
        cases b with
        | zero => simp [zipWith3]
        | succ b =>
          simp only [zipWith3, List.getD_cons_succ]
          exact ih ys zs b (by simpa using h1) (by simpa using h2) (by simpa using h3)

theorem getD_range_map (f : Nat → α) (n t : Nat) (d : α) (h : t < n) :
    ((List.range n).map f).getD t d = f t := by
  rw [List.getD_eq_getElem?_getD, List.getElem?_map, List.getElem?_range h]
  rfl

theorem getD_set_self (l : List α) (i : Nat) (v d : α) (h : i < l.length) :
    (l.set i v).getD i d = v := by
  rw [List.getD_eq_getElem?_getD, List.getElem?_set_self h]
  rfl

theorem getD_set_ne (l : List α) (i j : Nat) (v d : α) (h : i ≠ j) :
    (l.set i v).getD j d = l.getD j d := by
  rw [List.getD_eq_getElem?_getD, List.getElem?_set_ne h, ← List.getD_eq_getElem?_getD]

theorem getD_replicate (n i : Nat) (c : α) : (List.replicate n c).getD i c = c := by
  induction n generalizing i with
  | zero => simp
  | succ n ih =>
    cases i with
    | zero => simp [List.replicate]
    | succ i => simp only [List.replicate, List.getD_cons_succ]; exact ih i

theorem getD_append_add (l1 l2 : List α) (i : Nat) (d : α) :
    (l1 ++ l2).getD (l1.length + i) d = l2.getD i d := by
  induction l1 with
  | nil => simp
  | cons x xs ih => simpa [Nat.succ_add] using ih

theorem any_map_id (f : α → Bool) (l : List α) : (l.map f).any id = l.any f := by
  induction l with
  | nil => rfl
  | cons x xs ih => simp [ih]

theorem findIdx_id_le_of_getD (l : List Bool) (i : Nat)
    (h : l.getD i false = true) : l.findIdx id ≤ i := by
  induction l generalizing i with
  | nil => simp at h
  | cons b bs ih =>
    cases hb : b with
    | true => simp [List.findIdx_cons, hb]
    | false =>
      cases i with
      | zero => rw [hb] at h; simp at h
      | succ i =>
        simp only [List.findIdx_cons, hb, cond_false]
        exact Nat.succ_le_succ (ih i (by simpa using h))

theorem getD_findIdx_id (l : List Bool) (h : l.findIdx id < l.length) :
    l.getD (l.findIdx id) false = true := by
  induction l with
  | nil => simp at h
  | cons b bs ih =>
    cases hb : b with
    | true => simp [List.findIdx_cons, hb]
    | false =>
      simp only [List.findIdx_cons, hb, cond_false] at h ⊢
      simpa using ih (by simpa using h)

theorem getD_false_of_lt_findIdx_id (l : List Bool) (i : Nat)
    (h : i < l.findIdx id) : l.getD i false = false := by
  induction l generalizing i with
  | nil => simp
  | cons b bs ih =>
    cases hb : b with
    | true => simp [List.findIdx_cons, hb] at h
    | false =>
      simp only [List.findIdx_cons, hb, cond_false] at h
      cases i with
      | zero => simp [hb]
      | succ i => simpa using ih i (Nat.lt_of_succ_lt_succ h)

theorem le_findIdx_id_of_forall (l : List Bool) (i : Nat) (hi : i ≤ l.length)
    (h : ∀ s, s < i → l.getD s false = false) : i ≤ l.findIdx id := by
  by_contra hlt
  push_neg at hlt
  have h1 : l.findIdx id < l.length := Nat.lt_of_lt_of_le hlt hi
  have h2 := getD_findIdx_id l h1
  have h3 := h (l.findIdx id) hlt
  rw [h2] at h3
  exact absurd h3 (by simp)

theorem zipWith_idem (f : α → β → α) (hf : ∀ s a, f (f s a) a = f s a) :
    ∀ (ls : List α) (act : List β),
      List.zipWith f (List.zipWith f ls act) act = List.zipWith f ls act := by
  intro ls
  induction ls with
  | nil => intro act; simp
  | cons s ss ih =>
    intro act
    cases act with
    | nil => simp
    | cons a as => simp [hf, ih]

/-! Row-level facts about the state transition. -/

namespace WikicatEnvironment

theorem session_active_true (env : WikicatEnvironment) (s : List ℚ)
    (h : s.getD env.end_action_id 0 = 0) : env.session_active s = true :=
  decide_eq_true h

theorem session_active_false (env : WikicatEnvironment) (s : List ℚ)
    (h : s.getD env.end_action_id 0 ≠ 0) : env.session_active s = false :=
  decide_eq_false h

theorem new_state_row_of_active (env : WikicatEnvironment) (s : List ℚ) (a : Nat)
    (h : s.getD env.end_action_id 0 = 0) : env.new_state_row s a = s.set a 1 := by
  simp only [new_state_row, env.session_active_true s h, if_true]

theorem new_state_row_of_over (env : WikicatEnvironment) (s : List ℚ) (a : Nat)
    (h : s.getD env.end_action_id 0 ≠ 0) : env.new_state_row s a = s := by
  simp [new_state_row, env.session_active_false s h]

theorem new_state_row_idem (env : WikicatEnvironment) (s : List ℚ) (a : Nat) :
    env.new_state_row (env.new_state_row s a) a = env.new_state_row s a := by
  by_cases h : env.session_active s = true
  · simp only [new_state_row, h, if_true]
    by_cases h2 : env.session_active (s.set a 1) = true
    · simp [new_state_row, h2, List.set_set]
    · simp [new_state_row, h2]
  · simp [new_state_row, h]

theorem new_state_row_mono (env : WikicatEnvironment) (s : List ℚ) (a : Nat)
    (hbool : ∀ i, i < s.length → s.getD i 0 = 0 ∨ s.getD i 0 = 1) (i : Nat) :
    s.getD i 0 ≤ (env.new_state_row s a).getD i 0 := by
  by_cases h : env.session_active s = true
  · simp only [new_state_row, h, if_true]
    by_cases hia : i = a
    · subst hia
      by_cases hlen : i < s.length
      · rw [getD_set_self s i 1 0 hlen]
        rcases hbool i hlen with h0 | h1
        · rw [h0]; norm_num
        · rw [h1]
      · rw [List.set_eq_of_length_le (Nat.le_of_not_lt hlen)]
    · rw [getD_set_ne s a i 1 0 (fun hh => hia hh.symm)]
  · simp [new_state_row, h]

end WikicatEnvironment

open WikicatEnvironment

/-- C1: for every batch state and action, get_action_results returns a new
state row that is unchanged from last_state when the end flag (last column)
of last_state is already set, and otherwise equals last_state with the bit
at the chosen action index set to 1. -/
theorem C1_state_transition (env : WikicatEnvironment)
    (joint_data last_state : List (List ℚ)) (action : List Nat) (b : Nat)
    (hb : b < last_state.length) (hba : b < action.length) :
    ((last_state.getD b []).getD env.end_action_id 0 = 1 →
      (env.get_action_results joint_data last_state action).1.getD b []
        = last_state.getD b [])
    ∧ ((last_state.getD b []).getD env.end_action_id 0 = 0 →
      (env.get_action_results joint_data last_state action).1.getD b []
        = (last_state.getD b []).set (action.getD b 0) 1) := by
  have key := getD_zipWith env.new_state_row last_state action b hb hba [] 0 []
  simp only [WikicatEnvironment.get_action_results, key]
  constructor
  · intro h1
    rw [env.new_state_row_of_over _ _ (by rw [h1]; norm_num)]
  · intro h0
    rw [env.new_state_row_of_active _ _ h0]

/-- Witness for C1 at a concrete input: one attribute, one category, an
active three-column state and action 0. -/
theorem C1_state_transition_witness :
    (0 : Nat) < 1
    ∧ (([([0, 0, 0] : List ℚ)].getD 0 []).getD 2 0 = 0)
    ∧ ((WikicatEnvironment.get_action_results ⟨1, 1, default_rewards⟩
          [[1, 0, 0]] [[0, 0, 0]] [0]).1.getD 0 []
        = ([([0, 0, 0] : List ℚ)].getD 0 []).set 0 1) :=
  ⟨by decide, by decide,
    (C1_state_transition ⟨1, 1, default_rewards⟩ [[1, 0, 0]] [[0, 0, 0]] [0] 0
      (by decide) (by decide)).2 (by decide)⟩

/-- C7: the observation row returned by get_action_results is the
concatenation of the ground-truth response of the sample for the chosen
action, a flag equal to 1 exactly when the session was already over before
this step, and a one-hot vector over all actions with a 1 at the chosen
action index. -/
theorem C7_observation (env : WikicatEnvironment)
    (joint_data last_state : List (List ℚ)) (action : List Nat) (b : Nat)
    (h1 : b < joint_data.length) (h2 : b < last_state.length)
    (h3 : b < action.length) :
    ((env.get_action_results joint_data last_state action).2.getD b []
      = [response_at (joint_data.getD b []) (action.getD b 0)]
        ++ [if (last_state.getD b []).getD env.end_action_id 0 = 0 then 0 else 1]
        ++ to_one_hot (action.getD b 0) env.n_actions)
    ∧ ((if (last_state.getD b []).getD env.end_action_id 0 = 0 then (0 : ℚ) else 1) = 1
        ↔ (last_state.getD b []).getD env.end_action_id 0 ≠ 0)
    ∧ (∀ i, i < env.n_actions →
        (to_one_hot (action.getD b 0) env.n_actions).getD i 0
          = if i = action.getD b 0 then 1 else 0) := by
  refine ⟨?_, ?_, ?_⟩
  · have key := getD_zipWith3 (fun d s a => env.observation_row d s a)
      joint_data last_state action b h1 h2 h3 [] [] 0 []
    simp only [WikicatEnvironment.get_action_results, key]
    simp [WikicatEnvironment.observation_row, WikicatEnvironment.session_active,
      response_at]
  · by_cases h : (last_state.getD b []).getD env.end_action_id 0 = 0 <;> simp [h]
  · intro i hi
    exact getD_range_map (fun j => if j = action.getD b 0 then (1 : ℚ) else 0)
      env.n_actions i 0 hi

/-- Witness for C7 at a concrete input. -/
theorem C7_observation_witness :
    (0 : Nat) < 1
    ∧ ((WikicatEnvironment.get_action_results ⟨1, 1, default_rewards⟩
          [[1, 0, 0]] [[0, 0, 0]] [1]).2.getD 0 []
        = [response_at ([([1, 0, 0] : List ℚ)].getD 0 []) 1]
          ++ [if (([([0, 0, 0] : List ℚ)].getD 0 []).getD 2 0 = 0) then (0 : ℚ) else 1]
          ++ to_one_hot 1 3) :=
  ⟨by decide,
    (C7_observation ⟨1, 1, default_rewards⟩ [[1, 0, 0]] [[0, 0, 0]] [1] 0
      (by decide) (by decide) (by decide)).1⟩

/-- C8: the state transition is idempotent in the action: applying
get_action_results twice with the same action yields the same state as
applying it once. -/
theorem C8_idempotent (env : WikicatEnvironment)
    (joint_data joint_data2 last_state : List (List ℚ)) (action : List Nat) :
    (env.get_action_results joint_data2
        (env.get_action_results joint_data last_state action).1 action).1
      = (env.get_action_results joint_data last_state action).1 := by
  simp only [WikicatEnvironment.get_action_results]
  exact zipWith_idem env.new_state_row (env.new_state_row_idem) last_state action

/-- C9: state bits are monotone under every transition: no component of a
boolean state row ever decreases, and the end flag, once 1, stays 1. -/
theorem C9_monotone (env : WikicatEnvironment)
    (joint_data last_state : List (List ℚ)) (action : List Nat) (b : Nat)
    (hb : b < last_state.length) (hba : b < action.length)
    (hbool : ∀ i, i < (last_state.getD b []).length →
      (last_state.getD b []).getD i 0 = 0 ∨ (last_state.getD b []).getD i 0 = 1) :
    (∀ i, (last_state.getD b []).getD i 0
        ≤ ((env.get_action_results joint_data last_state action).1.getD b []).getD i 0)
    ∧ ((last_state.getD b []).getD env.end_action_id 0 = 1 →
      ((env.get_action_results joint_data last_state action).1.getD b []).getD
          env.end_action_id 0 = 1) := by
  have key := getD_zipWith env.new_state_row last_state action b hb hba [] 0 []
  simp only [WikicatEnvironment.get_action_results, key]
  constructor
  · intro i
    exact env.new_state_row_mono (last_state.getD b []) (action.getD b 0) hbool i
  · intro hflag
    rw [env.new_state_row_of_over _ (action.getD b 0) (by rw [hflag]; norm_num)]
    exact hflag

/-- Witness for C9 at a concrete input: a state whose end flag is set. -/
theorem C9_monotone_witness :
    (0 : Nat) < 1
    ∧ (∀ i, (([([1, 0, 1] : List ℚ)].getD 0 []).getD i 0
        ≤ ((WikicatEnvironment.get_action_results ⟨1, 1, default_rewards⟩
              [[1, 0, 0]] [[1, 0, 1]] [1]).1.getD 0 []).getD i 0)) :=
  ⟨by decide,
    (C9_monotone ⟨1, 1, default_rewards⟩ [[1, 0, 0]] [[1, 0, 1]] [1] 0
      (by decide) (by decide) (by decide)).1⟩

/-- C10: the ground-truth column for the end action is identically zero:
the response that get_reward and the observation of get_action_results read
from a joint_data row at the end action index is 0. -/
theorem C10_end_column_zero (env : WikicatEnvironment) (attrs cats ls : List ℚ)
    (ha : attrs.length = env.nAttrs) (hc : cats.length = env.nCats) :
    response_at (joint_data_row attrs cats) env.end_action_id = 0
    ∧ (env.observation_row (joint_data_row attrs cats) ls env.end_action_id).getD 0 0
        = 0 := by
  have hidx : env.end_action_id = (attrs ++ cats).length + 0 := by
    simp [WikicatEnvironment.end_action_id, ha, hc]
  have hresp : response_at (joint_data_row attrs cats) env.end_action_id = 0 := by
    rw [response_at, joint_data_row, hidx, getD_append_add]
    rfl
  refine ⟨hresp, ?_⟩
  simpa [WikicatEnvironment.observation_row, response_at] using hresp

/-- Witness for C10 at a concrete input. -/
theorem C10_end_column_zero_witness :
    ([(1 : ℚ)].length = 1)
    ∧ (response_at (joint_data_row [1] [0])
        (WikicatEnvironment.end_action_id ⟨1, 1, default_rewards⟩) = 0) :=
  ⟨by decide,
    (C10_end_column_zero ⟨1, 1, default_rewards⟩ [1] [0] [0, 0, 0]
      (by decide) (by decide)).1⟩

/-! Facts about get_reward. -/

theorem getD_map_lt (f : α → β) (l : List α) (i : Nat) (h : i < l.length)
    (d : α) (d2 : β) : (l.map f).getD i d2 = f (l.getD i d) := by
  rw [List.getD_eq_getElem?_getD, List.getElem?_map, List.getElem?_eq_getElem h,
    List.getD_eq_getElem?_getD, List.getElem?_eq_getElem h]
  rfl

namespace WikicatEnvironment

theorem action_is_categorical_iff (env : WikicatEnvironment) (a : Nat) :
    env.action_is_categorical a = true
      ↔ env.nAttrs ≤ a ∧ a < env.nAttrs + env.nCats := by
  simp [action_is_categorical, in1d, category_action_ids, List.mem_range'_1]

/-- Pointwise unfolding of get_reward at a tick in range. -/
theorem get_reward_getD (env : WikicatEnvironment) (data_row : List ℚ)
    (session_states : List (List ℚ)) (session_actions : List Nat) (t : Nat)
    (ht : t < session_actions.length) :
    (env.get_reward data_row session_states session_actions).getD t 0
      = if (session_states.getD t []).getD env.end_action_id 0 = 0 then
          (if (env.has_finished_now session_actions).getD t false = true then
            (if ((session_actions.map env.action_is_categorical).take
                  (env.end_tick session_actions)).any id = true
             then env.rw.end_action
             else env.rw.end_action_if_no_category_predicted)
           else
            (if (session_states.getD t []).getD (session_actions.getD t 0) 0 ≠ 0
             then env.rw.repeated_poll
             else
              (if env.action_is_categorical (session_actions.getD t 0) = true then
                response_at data_row (session_actions.getD t 0)
                    * (env.rw.category_positive - env.rw.category_negative)
                  + env.rw.category_negative
               else
                response_at data_row (session_actions.getD t 0)
                    * (env.rw.attribute_positive - env.rw.attribute_negative)
                  + env.rw.attribute_negative)))
        else 0 := by
  simp only [get_reward]
  rw [getD_range_map _ _ _ _ ht]
  simp only [decide_eq_true_eq]

theorem has_finished_now_length (env : WikicatEnvironment) (acts : List Nat) :
    (env.has_finished_now acts).length = acts.length := by
  simp [has_finished_now]

theorem has_finished_now_last (env : WikicatEnvironment) (acts : List Nat)
    (h : acts ≠ []) :
    (env.has_finished_now acts).getD (acts.length - 1) false = true := by
  have hpos : 0 < acts.length := List.length_pos.mpr h
  have hlen : acts.length - 1
      < (acts.map (fun a => decide (a = env.end_action_id))).length := by
    rw [List.length_map]; omega
  exact getD_set_self _ _ _ _ hlen

theorem end_tick_le (env : WikicatEnvironment) (acts : List Nat) (h : acts ≠ []) :
    env.end_tick acts ≤ acts.length - 1 :=
  findIdx_id_le_of_getD _ _ (env.has_finished_now_last acts h)

theorem end_tick_lt (env : WikicatEnvironment) (acts : List Nat) (h : acts ≠ []) :
    env.end_tick acts < acts.length := by
  have hpos : 0 < acts.length := List.length_pos.mpr h
  have := env.end_tick_le acts h
  omega

theorem acts_ne_end_of_lt_end_tick (env : WikicatEnvironment) (acts : List Nat)
    (h : acts ≠ []) (s : Nat) (hs : s < env.end_tick acts) :
    acts.getD s 0 ≠ env.end_action_id := by
  have h1 : (env.has_finished_now acts).getD s false = false :=
    getD_false_of_lt_findIdx_id _ _ hs
  have hsne : s ≠ acts.length - 1 := by
    have := env.end_tick_le acts h
    omega
  have hslt : s < acts.length := by
    have := env.end_tick_lt acts h
    omega
  rw [has_finished_now, getD_set_ne _ _ _ _ _ (fun e => hsne e.symm),
    getD_map_lt _ _ _ hslt 0] at h1
  intro hcontra
  rw [hcontra] at h1
  simp at h1

theorem has_finished_now_at_end_tick (env : WikicatEnvironment) (acts : List Nat)
    (h : acts ≠ []) :
    (env.has_finished_now acts).getD (env.end_tick acts) false = true := by
  apply getD_findIdx_id
  rw [env.has_finished_now_length]
  exact env.end_tick_lt acts h

theorem states_before_length (env : WikicatEnvironment) (s : List ℚ)
    (acts : List Nat) : (env.states_before s acts).length = acts.length := by
  induction acts generalizing s with
  | nil => rfl
  | cons a rest ih => simp [states_before, ih]

theorem states_before_flag_zero (env : WikicatEnvironment) (s : List ℚ)
    (acts : List Nat) (t : Nat) (hs : s.getD env.end_action_id 0 = 0)
    (ht : t < acts.length)
    (hne : ∀ i, i < t → acts.getD i 0 ≠ env.end_action_id) :
    ((env.states_before s acts).getD t []).getD env.end_action_id 0 = 0 := by
  induction acts generalizing s t with
  | nil => simp at ht
  | cons a rest ih =>
    cases t with
    | zero => simpa [states_before] using hs
    | succ t =>
      have ha : a ≠ env.end_action_id := by
        have := hne 0 (Nat.succ_pos t)
        simpa using this
      have hs2 : (env.new_state_row s a).getD env.end_action_id 0 = 0 := by
        rw [env.new_state_row_of_active s a hs, getD_set_ne _ _ _ _ _ ha]
        exact hs
      simp only [states_before, List.getD_cons_succ]
      refine ih (env.new_state_row s a) t hs2 (by simpa using ht) ?_
      intro i hi
      have := hne (i + 1) (Nat.succ_lt_succ hi)
      simpa using this

theorem zero_state_flag (env : WikicatEnvironment) (i : Nat) :
    (env.zero_state).getD i 0 = 0 :=
  getD_replicate _ _ _

/-- The reward the code assigns at the located end tick of a session started
in the all-zero state. -/
theorem reward_at_end_tick (env : WikicatEnvironment) (data_row : List ℚ)
    (acts : List Nat) (h : acts ≠ []) :
    (env.get_reward data_row (env.states_before env.zero_state acts) acts).getD
        (env.end_tick acts) 0
      = if (acts.take (env.end_tick acts)).any env.action_is_categorical
        then env.rw.end_action
        else env.rw.end_action_if_no_category_predicted := by
  have hlt := env.end_tick_lt acts h
  rw [env.get_reward_getD data_row _ acts _ hlt]
  have hflag : ((env.states_before env.zero_state acts).getD (env.end_tick acts)
      []).getD env.end_action_id 0 = 0 := by
    refine env.states_before_flag_zero _ acts _ (env.zero_state_flag _) hlt ?_
    exact fun i hi => env.acts_ne_end_of_lt_end_tick acts h i hi
  rw [if_pos hflag, if_pos (env.has_finished_now_at_end_tick acts h)]
  have hany : ((acts.map env.action_is_categorical).take (env.end_tick acts)).any id
      = (acts.take (env.end_tick acts)).any env.action_is_categorical := by
    rw [← List.map_take, any_map_id]
  rw [hany]

end WikicatEnvironment

/-- C2: at every non-end tick (not the forced last tick, action not the end
action) whose action was not tried before and at which the session is still
active, the reward is response*(category_positive - category_negative) +
category_negative when the action index lies in the category range and
response*(attribute_positive - attribute_negative) + attribute_negative
otherwise; in particular a first-time categorical action with response 1
earns category_positive and with response 0 earns category_negative. -/
theorem C2_intermediate_reward (env : WikicatEnvironment) (data_row : List ℚ)
    (states : List (List ℚ)) (acts : List Nat) (t : Nat)
    (ht : t < acts.length) (hlast : t ≠ acts.length - 1)
    (hnotend : acts.getD t 0 ≠ env.end_action_id)
    (hactive : (states.getD t []).getD env.end_action_id 0 = 0)
    (hfirst : (states.getD t []).getD (acts.getD t 0) 0 = 0) :
    ((env.get_reward data_row states acts).getD t 0
      = if env.nAttrs ≤ acts.getD t 0 ∧ acts.getD t 0 < env.nAttrs + env.nCats then
          response_at data_row (acts.getD t 0)
              * (env.rw.category_positive - env.rw.category_negative)
            + env.rw.category_negative
        else
          response_at data_row (acts.getD t 0)
              * (env.rw.attribute_positive - env.rw.attribute_negative)
            + env.rw.attribute_negative)
    ∧ ((env.nAttrs ≤ acts.getD t 0 ∧ acts.getD t 0 < env.nAttrs + env.nCats) →
        response_at data_row (acts.getD t 0) = 1 →
        (env.get_reward data_row states acts).getD t 0 = env.rw.category_positive)
    ∧ ((env.nAttrs ≤ acts.getD t 0 ∧ acts.getD t 0 < env.nAttrs + env.nCats) →
        response_at data_row (acts.getD t 0) = 0 →
        (env.get_reward data_row states acts).getD t 0 = env.rw.category_negative) := by
  have hfn_f : (env.has_finished_now acts).getD t false = false := by
    rw [WikicatEnvironment.has_finished_now,
      getD_set_ne _ _ _ _ _ (fun e => hlast e.symm), getD_map_lt _ _ _ ht 0]
    exact decide_eq_false hnotend
  have hmain : (env.get_reward data_row states acts).getD t 0
      = if env.nAttrs ≤ acts.getD t 0 ∧ acts.getD t 0 < env.nAttrs + env.nCats then
          response_at data_row (acts.getD t 0)
              * (env.rw.category_positive - env.rw.category_negative)
            + env.rw.category_negative
        else
          response_at data_row (acts.getD t 0)
              * (env.rw.attribute_positive - env.rw.attribute_negative)
            + env.rw.attribute_negative := by
    rw [env.get_reward_getD data_row states acts t ht, if_pos hactive,
      if_neg (by rw [hfn_f]; simp), if_neg (fun hh => hh hfirst)]
    by_cases hcat : env.nAttrs ≤ acts.getD t 0 ∧ acts.getD t 0 < env.nAttrs + env.nCats
    · rw [if_pos ((env.action_is_categorical_iff _).mpr hcat), if_pos hcat]
    · rw [if_neg (fun hh => hcat ((env.action_is_categorical_iff _).mp hh)),
        if_neg hcat]
  refine ⟨hmain, fun hcat hresp => ?_, fun hcat hresp => ?_⟩
  · rw [hmain, if_pos hcat, hresp]; ring
  · rw [hmain, if_pos hcat, hresp]; ring

/-- Witness for C2 at a concrete input: a first-time categorical action
with ground-truth response 1 earns category_positive. -/
theorem C2_intermediate_reward_witness :
    (0 : Nat) < 2
    ∧ (WikicatEnvironment.get_reward ⟨1, 1, default_rewards⟩ (joint_data_row [0] [1])
        [[0, 0, 0], [0, 0, 0]] [1, 0]).getD 0 0
      = Rewards.category_positive default_rewards :=
  ⟨by decide,
    (C2_intermediate_reward ⟨1, 1, default_rewards⟩ (joint_data_row [0] [1])
      [[0, 0, 0], [0, 0, 0]] [1, 0] 0 (by decide) (by decide) (by decide)
      (by decide) (by decide)).2.1 (by decide) (by decide)⟩

/-- C3, counterexample to the claim as stated: in the session with actions
[0, 0] the second tick repeats action 0 (its bit is set in the state before
the tick) while the session is still active, yet get_reward assigns the
end-tick reward 0 there, not the repeated_poll constant -1/2, because the
final tick of a trajectory is always treated as an end tick. -/
theorem C3_counterexample :
    ((WikicatEnvironment.states_before ⟨1, 1, default_rewards⟩
        (WikicatEnvironment.zero_state ⟨1, 1, default_rewards⟩) [0, 0]).getD 1
        []).getD 0 0 = 1
    ∧ ((WikicatEnvironment.states_before ⟨1, 1, default_rewards⟩
        (WikicatEnvironment.zero_state ⟨1, 1, default_rewards⟩) [0, 0]).getD 1
        []).getD 2 0 = 0
    ∧ (WikicatEnvironment.get_reward ⟨1, 1, default_rewards⟩ (joint_data_row [1] [0])
        (WikicatEnvironment.states_before ⟨1, 1, default_rewards⟩
          (WikicatEnvironment.zero_state ⟨1, 1, default_rewards⟩) [0, 0])
        [0, 0]).getD 1 0 = 0
    ∧ Rewards.repeated_poll default_rewards = -(1/2)
    ∧ ((0 : ℚ) ≠ -(1/2)) :=
  ⟨by decide, by decide, by decide, rfl, by norm_num⟩

/-- C3 as amended: at every tick that is not an end tick (not the forced
last tick, action not the end action) and at which the session is still
active, a repeated action (its bit set in the state before the tick) is
rewarded exactly repeated_poll, irrespective of the ground-truth response. -/
theorem C3_repeat_penalty (env : WikicatEnvironment) (data_row : List ℚ)
    (states : List (List ℚ)) (acts : List Nat) (t : Nat)
    (ht : t < acts.length) (hlast : t ≠ acts.length - 1)
    (hnotend : acts.getD t 0 ≠ env.end_action_id)
    (hactive : (states.getD t []).getD env.end_action_id 0 = 0)
    (hrep : (states.getD t []).getD (acts.getD t 0) 0 = 1) :
    (env.get_reward data_row states acts).getD t 0 = env.rw.repeated_poll := by
  have hfn_f : (env.has_finished_now acts).getD t false = false := by
    rw [WikicatEnvironment.has_finished_now,
      getD_set_ne _ _ _ _ _ (fun e => hlast e.symm), getD_map_lt _ _ _ ht 0]
    exact decide_eq_false hnotend
  rw [env.get_reward_getD data_row states acts t ht, if_pos hactive,
    if_neg (by rw [hfn_f]; simp), if_pos (by rw [hrep]; norm_num)]

/-- Witness for the amended C3 at a concrete input: repeating action 0 at
the middle tick of the session [0, 0, 1] earns repeated_poll. -/
theorem C3_repeat_penalty_witness :
    (1 : Nat) < 3
    ∧ (WikicatEnvironment.get_reward ⟨1, 1, default_rewards⟩ (joint_data_row [1] [0])
        (WikicatEnvironment.states_before ⟨1, 1, default_rewards⟩
          (WikicatEnvironment.zero_state ⟨1, 1, default_rewards⟩) [0, 0, 1])
        [0, 0, 1]).getD 1 0 = Rewards.repeated_poll default_rewards :=
  ⟨by decide,
    C3_repeat_penalty ⟨1, 1, default_rewards⟩ (joint_data_row [1] [0])
      (WikicatEnvironment.states_before ⟨1, 1, default_rewards⟩
        (WikicatEnvironment.zero_state ⟨1, 1, default_rewards⟩) [0, 0, 1])
      [0, 0, 1] 1 (by decide) (by decide) (by decide) (by decide) (by decide)⟩

/-- C4: at the located end tick of every session started in the all-zero
state, get_reward assigns end_action if at least one categorical action
occurred strictly before the first end tick, and
end_action_if_no_category_predicted otherwise. -/
theorem C4_end_action_reward (env : WikicatEnvironment) (data_row : List ℚ)
    (acts : List Nat) (h : acts ≠ []) :
    (env.get_reward data_row (env.states_before env.zero_state acts) acts).getD
        (env.end_tick acts) 0
      = if (acts.take (env.end_tick acts)).any env.action_is_categorical
        then env.rw.end_action
        else env.rw.end_action_if_no_category_predicted :=
  env.reward_at_end_tick data_row acts h

/-- Witness for C4 at a concrete input: ending after one categorical action
earns the end_action constant (here 5). -/
theorem C4_end_action_reward_witness :
    ([1, 2] : List Nat) ≠ []
    ∧ (WikicatEnvironment.get_reward ⟨1, 1, ⟨1, -1, 3, -1, -(1/2), 5, -7⟩⟩
        (joint_data_row [1] [1])
        (WikicatEnvironment.states_before ⟨1, 1, ⟨1, -1, 3, -1, -(1/2), 5, -7⟩⟩
          (WikicatEnvironment.zero_state ⟨1, 1, ⟨1, -1, 3, -1, -(1/2), 5, -7⟩⟩)
          [1, 2]) [1, 2]).getD
        (WikicatEnvironment.end_tick ⟨1, 1, ⟨1, -1, 3, -1, -(1/2), 5, -7⟩⟩ [1, 2]) 0
      = 5 :=
  ⟨by decide, by
    rw [C4_end_action_reward ⟨1, 1, ⟨1, -1, 3, -1, -(1/2), 5, -7⟩⟩
      (joint_data_row [1] [1]) [1, 2] (by decide)]
    decide⟩

/-- C5: at every tick at which the session has already ended (the end flag
in the state before that tick is 1), get_reward returns exactly 0. -/
theorem C5_zero_after_end (env : WikicatEnvironment) (data_row : List ℚ)
    (states : List (List ℚ)) (acts : List Nat) (t : Nat)
    (h : (states.getD t []).getD env.end_action_id 0 = 1) :
    (env.get_reward data_row states acts).getD t 0 = 0 := by
  by_cases ht : t < acts.length
  · rw [env.get_reward_getD data_row states acts t ht,
      if_neg (by rw [h]; norm_num)]
  · have hlen : (env.get_reward data_row states acts).length = acts.length := by
      simp [WikicatEnvironment.get_reward]
    exact List.getD_eq_default _ _ (by omega)

/-- Witness for C5 at a concrete input. -/
theorem C5_zero_after_end_witness :
    (([([0, 0, 1] : List ℚ)].getD 0 []).getD 2 0 = 1)
    ∧ (WikicatEnvironment.get_reward ⟨1, 1, default_rewards⟩ (joint_data_row [1] [0])
        [[0, 0, 1]] [0]).getD 0 0 = 0 :=
  ⟨by decide,
    C5_zero_after_end ⟨1, 1, default_rewards⟩ (joint_data_row [1] [0])
      [[0, 0, 1]] [0] 0 (by decide)⟩

/-- C6: get_reward treats the final tick of every trajectory as an end tick
regardless of the action taken there: in a session started in the all-zero
state whose actions never include the end action, the last tick receives the
end-action reward (end_action or end_action_if_no_category_predicted). -/
theorem C6_forced_end (env : WikicatEnvironment) (data_row : List ℚ)
    (acts : List Nat) (h : acts ≠ [])
    (hnoend : ∀ i, i < acts.length → acts.getD i 0 ≠ env.end_action_id) :
    (env.get_reward data_row (env.states_before env.zero_state acts) acts).getD
        (acts.length - 1) 0
      = if (acts.take (acts.length - 1)).any env.action_is_categorical
        then env.rw.end_action
        else env.rw.end_action_if_no_category_predicted := by
  have het : env.end_tick acts = acts.length - 1 := by
    apply Nat.le_antisymm (env.end_tick_le acts h)
    apply le_findIdx_id_of_forall
    · rw [env.has_finished_now_length]
      omega
    · intro s hs
      have hpos : 0 < acts.length := List.length_pos.mpr h
      have hslt : s < acts.length := by omega
      have hsne : s ≠ acts.length - 1 := by omega
      rw [WikicatEnvironment.has_finished_now,
        getD_set_ne _ _ _ _ _ (fun e => hsne e.symm), getD_map_lt _ _ _ hslt 0]
      exact decide_eq_false (hnoend s hslt)
  have hmain := env.reward_at_end_tick data_row acts h
  rw [het] at hmain
  exact hmain

/-- Witness for C6 at a concrete input: the session [0, 1] never takes the
end action, yet its last tick is paid the end-action reward (here -7, since
no categorical action occurred before the forced end). -/
theorem C6_forced_end_witness :
    ([0, 1] : List Nat) ≠ []
    ∧ (WikicatEnvironment.get_reward ⟨1, 1, ⟨1, -1, 3, -1, -(1/2), 5, -7⟩⟩
        (joint_data_row [1] [1])
        (WikicatEnvironment.states_before ⟨1, 1, ⟨1, -1, 3, -1, -(1/2), 5, -7⟩⟩
          (WikicatEnvironment.zero_state ⟨1, 1, ⟨1, -1, 3, -1, -(1/2), 5, -7⟩⟩)
          [0, 1]) [0, 1]).getD (([0, 1] : List Nat).length - 1) 0 = -7 :=
  ⟨by decide, by
    rw [C6_forced_end ⟨1, 1, ⟨1, -1, 3, -1, -(1/2), 5, -7⟩⟩
      (joint_data_row [1] [1]) [0, 1] (by decide) (by decide)]
    decide⟩

end Wikicat
